import Mathlib

/-!
Verification of the advanced-mapping core (`software/advanced_mapping.py`):
occupancy grid, Bresenham ray update, polar-to-cartesian transform,
scan interpolation, dead-reckoning localizer and map persistence.

Modelling conventions: Python floats are modelled by real numbers (for the
trigonometric transform) and by rationals where the code only compares and
linearly combines values (scan distances); Python `round` is modelled by
Mathlib's `round`, Python `//` by `Int.fdiv` and `%` by `Int.emod`.  The
occupancy grid is a total function from integer cell coordinates to the
cell-state codes used by the code (-1 unknown, 0 free, 1 occupied); the
source's `while` loop in `mark_free_space` is modelled with an explicit
fuel of `dx + dy` steps, enough for every terminating Bresenham walk.
-/

namespace AdvancedMapping

/-- Occupancy state codes, exactly the module constants of the source. -/
def UNKNOWN : Int := -1

/-- Observed free space. -/
def FREE : Int := 0

/-- Observed obstacle. -/
def OCCUPIED : Int := 1

/-- Default grid side length (`MAP_SIZE = 100`). -/
def MAP_SIZE : Int := 100

/-- Maximum distance considered (`MAX_DISTANCE = 100` cm). -/
def MAX_DISTANCE : ℚ := 100

/-- Obstacle marking threshold (`OBSTACLE_THRESHOLD = 80` cm). -/
def OBSTACLE_THRESHOLD : ℚ := 80

/-- The occupancy grid: cell `(x, y)` to its state code.  The numpy array
`occupancy_map[y, x]` of the source is the same data keyed by `(x, y)`. -/
abbrev Grid := Int × Int → Int

/-- The all-unknown grid the mapper starts from (`np.full(..., UNKNOWN)`). -/
def initial_map : Grid := fun _ => UNKNOWN

/-- `clear_map`: reset every cell to unknown. -/
def clear_map : Grid := fun _ => UNKNOWN

/-- The bounds test `0 <= x < map_size and 0 <= y < map_size` used at every
write site. -/
abbrev inBounds (N : Int) (p : Int × Int) : Prop :=
  0 ≤ p.1 ∧ p.1 < N ∧ 0 ≤ p.2 ∧ p.2 < N

/-- One guarded free-space write of `mark_free_space`: inside the grid and
not already occupied, the cell becomes `FREE`; otherwise nothing happens. -/
def setFreeCell (N : Int) (g : Grid) (x y : Int) : Grid :=
  if inBounds N (x, y) then
    if g (x, y) ≠ OCCUPIED then Function.update g (x, y) FREE else g
  else g

/-- One Bresenham step of `mark_free_space`: from `(x, y)` with running
error `err`, produce the next `(x, y, err)` using `e2 = 2*err` compared
against `-dy` and `dx`. -/
def bresNext (dx dy sx sy x y err : Int) : Int × Int × Int :=
  let e2 := 2 * err
  let x' := if -dy < e2 then x + sx else x
  let err1 := if -dy < e2 then err - dy else err
  let y' := if e2 < dx then y + sy else y
  let err2 := if e2 < dx then err1 + dx else err1
  (x', y', err2)

/-- The `while not (x == x2 and y == y2)` loop of `mark_free_space`,
with explicit fuel: write the current cell (guarded), advance, repeat. -/
def markFreeAux (N x2 y2 dx dy sx sy : Int) (fuel : Nat) (x y err : Int)
    (g : Grid) : Grid :=
  if x = x2 ∧ y = y2 then g
  else
    match fuel with
    | 0 => g
    | fuel' + 1 =>
      let g' := setFreeCell N g x y
      let s := bresNext dx dy sx sy x y err
      markFreeAux N x2 y2 dx dy sx sy fuel' s.1 s.2.1 s.2.2 g'

/-- The cells visited by the Bresenham walk (every cell the loop body runs
on, i.e. all cells strictly before reaching the end point). -/
def bresPathAux (x2 y2 dx dy sx sy : Int) (fuel : Nat) (x y err : Int) :
    List (Int × Int) :=
  if x = x2 ∧ y = y2 then []
  else
    match fuel with
    | 0 => []
    | fuel' + 1 =>
      let s := bresNext dx dy sx sy x y err
      (x, y) :: bresPathAux x2 y2 dx dy sx sy fuel' s.1 s.2.1 s.2.2

/-- `mark_free_space`: mark the cells of the Bresenham line from `(x1, y1)`
up to (excluding) `(x2, y2)` as free, never overwriting obstacles. -/
def mark_free_space (N : Int) (g : Grid) (x1 y1 x2 y2 : Int) : Grid :=
  let dx := |x2 - x1|
  let dy := |y2 - y1|
  let sx : Int := if x1 < x2 then 1 else -1
  let sy : Int := if y1 < y2 then 1 else -1
  markFreeAux N x2 y2 dx dy sx sy (dx + dy).toNat x1 y1 (dx - dy) g

/-- The cells `mark_free_space` runs its loop body on, in visit order. -/
def bresPath (x1 y1 x2 y2 : Int) : List (Int × Int) :=
  let dx := |x2 - x1|
  let dy := |y2 - y1|
  let sx : Int := if x1 < x2 then 1 else -1
  let sy : Int := if y1 < y2 then 1 else -1
  bresPathAux x2 y2 dx dy sx sy (dx + dy).toNat x1 y1 (dx - dy)

/-- `math.radians`: degrees to radians. -/
noncomputable def radians (d : ℝ) : ℝ := d * Real.pi / 180

/-- `polar_to_cartesian`: convert a `(bearing, distance)` reading taken at
pose `(car_x, car_y, car_angle)` to a rounded grid cell, or `none` when the
rounded cell falls outside `[0, N) × [0, N)`.  The bearing is subtracted
from the heading (`radians(car_angle - angle_deg)`). -/
noncomputable def polar_to_cartesian (N : Int) (angle_deg : Int)
    (distance_cm : ℚ) (car_x car_y car_angle : Int) : Option (Int × Int) :=
  let total_angle_rad := radians ((car_angle : ℝ) - (angle_deg : ℝ))
  let x : ℝ := (car_x : ℝ) + (distance_cm : ℝ) * Real.cos total_angle_rad
  let y : ℝ := (car_y : ℝ) + (distance_cm : ℝ) * Real.sin total_angle_rad
  let x_int := round x
  let y_int := round y
  if 0 ≤ x_int ∧ x_int < N ∧ 0 ≤ y_int ∧ y_int < N then some (x_int, y_int)
  else none

/-- The part of the `update_map_from_scan` loop body that runs once a hit
cell is known: mark the ray free, then mark the hit cell occupied and count
it when it was not already occupied. -/
def apply_hit (N : Int) (acc : Grid × Nat) (car_x car_y x_hit y_hit : Int) :
    Grid × Nat :=
  let g' := mark_free_space N acc.1 car_x car_y x_hit y_hit
  if g' (x_hit, y_hit) ≠ OCCUPIED then
    (Function.update g' (x_hit, y_hit) OCCUPIED, acc.2 + 1)
  else (g', acc.2)

/-- One iteration of the `update_map_from_scan` loop: gate the sample on
its distance, transform it to a hit cell, and apply the ray update. -/
noncomputable def scanStep (N car_x car_y car_angle : Int)
    (acc : Grid × Nat) (sample : Int × ℚ) : Grid × Nat :=
  if sample.2 ≤ 0 ∨ MAX_DISTANCE ≤ sample.2 ∨ OBSTACLE_THRESHOLD < sample.2
  then acc
  else
    match polar_to_cartesian N sample.1 sample.2 car_x car_y car_angle with
    | none => acc
    | some (x_hit, y_hit) => apply_hit N acc car_x car_y x_hit y_hit

/-- `update_map_from_scan`: fold the loop body over the scan samples,
returning the updated grid and the count of newly marked obstacles. -/
noncomputable def update_map_from_scan (N : Int) (g : Grid)
    (scan_data : List (Int × ℚ)) (car_x car_y car_angle : Int) :
    Grid × Nat :=
  List.foldl (scanStep N car_x car_y car_angle) (g, 0) scan_data

/-- `update_car_position`: rotate first (`(angle + delta) mod 360`), then,
only for a strictly positive distance, translate along the new heading and
clamp each axis to `[0, N-1]`. -/
noncomputable def update_car_position (N : Int) (car_x car_y car_angle : Int)
    (distance_cm : ℚ) (delta_angle_deg : Int) : Int × Int × Int :=
  let car_angle' := (car_angle + delta_angle_deg) % 360
  if 0 < distance_cm then
    let angle_rad := radians (car_angle' : ℝ)
    let x' := car_x + round ((distance_cm : ℝ) * Real.cos angle_rad)
    let y' := car_y + round ((distance_cm : ℝ) * Real.sin angle_rad)
    (max 0 (min (N - 1) x'), max 0 (min (N - 1) y'), car_angle')
  else (car_x, car_y, car_angle')

/-- The interior points `interpolate_scan` inserts between one adjacent
pair: `num_points = |angle2 - angle1| // interp_step`, and for
`j = 1 .. num_points - 1` a point at `angle1 + j·interp_step` toward
`angle2` with distance `dist1 + (dist2 - dist1)·(j / num_points)`. -/
def interpSegment (angle1 : Int) (dist1 : ℚ) (angle2 : Int) (dist2 : ℚ)
    (interp_step : Int) : List (Int × ℚ) :=
  let num_points := Int.fdiv |angle2 - angle1| interp_step
  if 1 < num_points then
    (List.range' 1 (num_points - 1).toNat).map (fun (j : Nat) =>
      let interp_angle :=
        angle1 + (j : Int) * interp_step * (if angle1 < angle2 then 1 else -1)
      let t : ℚ := (j : ℚ) / (num_points : ℚ)
      (interp_angle, dist1 + (dist2 - dist1) * t))
  else []

/-- The `for i in range(len - 1)` loop of `interpolate_scan`: for each
adjacent pair, emit the first point and then the interpolated interior. -/
def interpPairs (interp_step : Int) : List (Int × ℚ) → List (Int × ℚ)
  | (a1, d1) :: (a2, d2) :: rest =>
    ((a1, d1) :: interpSegment a1 d1 a2 d2 interp_step)
      ++ interpPairs interp_step ((a2, d2) :: rest)
  | _ => []

/-- `interpolate_scan`: fewer than 2 samples are returned unchanged;
otherwise the pair loop runs with sub-step `min(5, step // 2)` and the last
original sample is appended.  A zero sub-step makes the Python code raise
`ZeroDivisionError` at the `//` computing `num_points`, modelled as
`none`. -/
def interpolate_scan (scan_data : List (Int × ℚ)) (step : Int) :
    Option (List (Int × ℚ)) :=
  if scan_data.length < 2 then some scan_data
  else
    let interp_step := min 5 (Int.fdiv step 2)
    if interp_step = 0 then none
    else some (interpPairs interp_step scan_data ++ [scan_data.getLastD (0, 0)])

/-- Modelled from the spec: the byte-level persistence of `save_map` is
`np.save`, whose `.npy` encoding is not part of this repository; per §6
the grid serializes as its dimensions followed by the dense row-major
per-cell states, one value per cell. -/
def save_map (N : Nat) (g : Grid) : Nat × List Int :=
  (N, (List.range (N * N)).map (fun i => g ((i % N : Nat), (i / N : Nat))))

/-- Modelled from the spec: `load_map` (`np.load`) restores the grid from
the persisted dimensions and row-major cells, failing on a malformed
payload; cells outside the stored dimensions are unknown. -/
def load_map (data : Nat × List Int) : Option (Nat × Grid) :=
  if data.2.length = data.1 * data.1 then
    some (data.1, fun p =>
      if 0 ≤ p.1 ∧ p.1 < (data.1 : Int) ∧ 0 ≤ p.2 ∧ p.2 < (data.1 : Int) then
        data.2.getD (p.2.toNat * data.1 + p.1.toNat) UNKNOWN
      else UNKNOWN)
  else none

/-- A cell that has been observed: free or occupied. -/
def Observed (g : Grid) (p : Int × Int) : Prop :=
  g p = FREE ∨ g p = OCCUPIED

theorem setFreeCell_apply (N : Int) (g : Grid) (q p : Int × Int) :
    setFreeCell N g q.1 q.2 p =
      if p = q ∧ inBounds N p ∧ g p ≠ OCCUPIED then FREE else g p := by
  unfold setFreeCell
  simp only [Prod.mk.eta]
  by_cases hp : p = q
  · subst hp
    by_cases hb : inBounds N p
    · rw [if_pos hb]
      by_cases ho : g p = OCCUPIED
      · rw [if_neg (not_not_intro ho), if_neg (fun h => h.2.2 ho)]
      · rw [if_pos ho, if_pos ⟨rfl, hb, ho⟩, Function.update_same]
    · rw [if_neg hb, if_neg (fun h => hb h.2.1)]
  · rw [if_neg (show ¬(p = q ∧ inBounds N p ∧ g p ≠ OCCUPIED) from
      fun h => hp h.1)]
    by_cases hb : inBounds N q
    · rw [if_pos hb]
      by_cases ho : g q = OCCUPIED
      · rw [if_neg (not_not_intro ho)]
      · rw [if_pos ho, Function.update_noteq hp]
    · rw [if_neg hb]

theorem setFreeCell_occ (N : Int) (g : Grid) (q p : Int × Int) :
    setFreeCell N g q.1 q.2 p = OCCUPIED ↔ g p = OCCUPIED := by
  rw [setFreeCell_apply]
  split_ifs with h
  · exact iff_of_false (by decide) h.2.2
  · exact Iff.rfl

theorem foldl_setFreeCell_occ (N : Int) (L : List (Int × Int)) (g : Grid)
    (p : Int × Int) :
    List.foldl (fun g' q => setFreeCell N g' q.1 q.2) g L p = OCCUPIED ↔
      g p = OCCUPIED := by
  induction L generalizing g with
  | nil => simp
  | cons q L ih => rw [List.foldl_cons, ih, setFreeCell_occ]

theorem foldl_setFreeCell_keeps_free (N : Int) (L : List (Int × Int))
    (g : Grid) (p : Int × Int) (h : g p = FREE) :
    List.foldl (fun g' q => setFreeCell N g' q.1 q.2) g L p = FREE := by
  induction L generalizing g with
  | nil => exact h
  | cons q L ih =>
    rw [List.foldl_cons]
    apply ih
    rw [setFreeCell_apply]
    split_ifs with hc
    · rfl
    · exact h

theorem foldl_setFreeCell_mem (N : Int) (L : List (Int × Int)) (g : Grid)
    (p : Int × Int) (hmem : p ∈ L) (hin : inBounds N p)
    (ho : g p ≠ OCCUPIED) :
    List.foldl (fun g' q => setFreeCell N g' q.1 q.2) g L p = FREE := by
  induction L generalizing g with
  | nil => cases hmem
  | cons q L ih =>
    rw [List.foldl_cons]
    rcases List.mem_cons.mp hmem with heq | htail
    · apply foldl_setFreeCell_keeps_free
      rw [setFreeCell_apply, if_pos ⟨heq, hin, ho⟩]
    · exact ih _ htail (by rw [Ne, setFreeCell_occ]; exact ho)

theorem foldl_setFreeCell_not_mem (N : Int) (L : List (Int × Int)) (g : Grid)
    (p : Int × Int) (hmem : p ∉ L) :
    List.foldl (fun g' q => setFreeCell N g' q.1 q.2) g L p = g p := by
  induction L generalizing g with
  | nil => rfl
  | cons q L ih =>
    rw [List.foldl_cons, ih _ (fun h => hmem (List.mem_cons_of_mem q h)),
      setFreeCell_apply,
      if_neg (fun h => hmem (by rw [h.1]; exact List.mem_cons_self q L))]

theorem foldl_setFreeCell_out (N : Int) (L : List (Int × Int)) (g : Grid)
    (p : Int × Int) (hout : ¬inBounds N p) :
    List.foldl (fun g' q => setFreeCell N g' q.1 q.2) g L p = g p := by
  induction L generalizing g with
  | nil => rfl
  | cons q L ih =>
    rw [List.foldl_cons, ih, setFreeCell_apply, if_neg (fun h => hout h.2.1)]

theorem markFreeAux_eq_foldl (N x2 y2 dx dy sx sy : Int) (fuel : Nat) :
    ∀ x y err g, markFreeAux N x2 y2 dx dy sx sy fuel x y err g =
      List.foldl (fun g' q => setFreeCell N g' q.1 q.2) g
        (bresPathAux x2 y2 dx dy sx sy fuel x y err) := by
  induction fuel with
  | zero =>
    intro x y err g
    rw [markFreeAux, bresPathAux]
    split_ifs <;> rfl
  | succ n ih =>
    intro x y err g
    rw [markFreeAux, bresPathAux]
    split_ifs with h
    · rfl
    · simp only [List.foldl_cons]
      exact ih _ _ _ _

theorem mark_free_space_eq_foldl (N : Int) (g : Grid) (x1 y1 x2 y2 : Int) :
    mark_free_space N g x1 y1 x2 y2 =
      List.foldl (fun g' q => setFreeCell N g' q.1 q.2) g
        (bresPath x1 y1 x2 y2) := by
  unfold mark_free_space bresPath
  rw [markFreeAux_eq_foldl]

theorem mark_free_space_occ (N : Int) (g : Grid) (x1 y1 x2 y2 : Int)
    (p : Int × Int) :
    mark_free_space N g x1 y1 x2 y2 p = OCCUPIED ↔ g p = OCCUPIED := by
  rw [mark_free_space_eq_foldl]
  exact foldl_setFreeCell_occ ..

theorem mark_free_space_mem (N : Int) (g : Grid) (x1 y1 x2 y2 : Int)
    (p : Int × Int) (hmem : p ∈ bresPath x1 y1 x2 y2) (hin : inBounds N p)
    (ho : g p ≠ OCCUPIED) :
    mark_free_space N g x1 y1 x2 y2 p = FREE := by
  rw [mark_free_space_eq_foldl]
  exact foldl_setFreeCell_mem N _ g p hmem hin ho

theorem mark_free_space_not_mem (N : Int) (g : Grid) (x1 y1 x2 y2 : Int)
    (p : Int × Int) (hmem : p ∉ bresPath x1 y1 x2 y2) :
    mark_free_space N g x1 y1 x2 y2 p = g p := by
  rw [mark_free_space_eq_foldl]
  exact foldl_setFreeCell_not_mem N _ g p hmem

theorem mark_free_space_out (N : Int) (g : Grid) (x1 y1 x2 y2 : Int)
    (p : Int × Int) (hout : ¬inBounds N p) :
    mark_free_space N g x1 y1 x2 y2 p = g p := by
  rw [mark_free_space_eq_foldl]
  exact foldl_setFreeCell_out N _ g p hout

theorem mark_free_space_free_of_free (N : Int) (g : Grid) (x1 y1 x2 y2 : Int)
    (p : Int × Int) (h : g p = FREE) :
    mark_free_space N g x1 y1 x2 y2 p = FREE := by
  rw [mark_free_space_eq_foldl]
  exact foldl_setFreeCell_keeps_free N _ g p h

theorem bresPathAux_target_not_mem (x2 y2 dx dy sx sy : Int) (fuel : Nat) :
    ∀ x y err, (x2, y2) ∉ bresPathAux x2 y2 dx dy sx sy fuel x y err := by
  induction fuel with
  | zero =>
    intro x y err
    rw [bresPathAux]
    split_ifs <;> simp
  | succ n ih =>
    intro x y err
    rw [bresPathAux]
    split_ifs with h
    · simp
    · intro hmem
      rcases List.mem_cons.mp hmem with heq | htail
      · exact h ⟨(Prod.mk.injEq .. ▸ heq.symm).1.symm ▸ rfl,
          (Prod.mk.injEq .. ▸ heq.symm).2.symm ▸ rfl⟩
      · exact ih _ _ _ htail

theorem bresPath_target_not_mem (x1 y1 x2 y2 : Int) :
    (x2, y2) ∉ bresPath x1 y1 x2 y2 := by
  unfold bresPath
  exact bresPathAux_target_not_mem _ _ _ _ _ _ _ x1 y1 _

theorem mark_free_space_target (N : Int) (g : Grid) (x1 y1 x2 y2 : Int) :
    mark_free_space N g x1 y1 x2 y2 (x2, y2) = g (x2, y2) :=
  mark_free_space_not_mem N g x1 y1 x2 y2 (x2, y2)
    (bresPath_target_not_mem x1 y1 x2 y2)

/-- `mark_free_space` is the identity on a grid in which every in-bounds
cell of the walked line is already observed. -/
theorem mark_free_space_id (N : Int) (g : Grid) (x1 y1 x2 y2 : Int)
    (h : ∀ q ∈ bresPath x1 y1 x2 y2, inBounds N q → Observed g q) :
    mark_free_space N g x1 y1 x2 y2 = g := by
  funext p
  by_cases hmem : p ∈ bresPath x1 y1 x2 y2
  · by_cases hin : inBounds N p
    · rcases h p hmem hin with hF | hO
      · rw [mark_free_space_mem N g x1 y1 x2 y2 p hmem hin, hF]
        rw [hF]
        decide
      · exact (mark_free_space_occ N g x1 y1 x2 y2 p).mpr hO |>.trans hO.symm
    · exact mark_free_space_out N g x1 y1 x2 y2 p hin
  · exact mark_free_space_not_mem N g x1 y1 x2 y2 p hmem

theorem apply_hit_fst_target (N : Int) (acc : Grid × Nat)
    (cx cy hx hy : Int) :
    (apply_hit N acc cx cy hx hy).1 (hx, hy) = OCCUPIED := by
  simp only [apply_hit]
  split_ifs with h
  · exact Function.update_same ..
  · exact not_not.mp h

theorem apply_hit_count (N : Int) (g : Grid) (c : Nat) (cx cy hx hy : Int) :
    (apply_hit N (g, c) cx cy hx hy).2 =
      if g (hx, hy) = OCCUPIED then c else c + 1 := by
  simp only [apply_hit]
  rw [mark_free_space_target]
  split_ifs with h h' <;> simp_all

theorem apply_hit_fst_ne (N : Int) (acc : Grid × Nat) (cx cy hx hy : Int)
    (p : Int × Int) (hp : p ≠ (hx, hy)) :
    (apply_hit N acc cx cy hx hy).1 p =
      mark_free_space N acc.1 cx cy hx hy p := by
  simp only [apply_hit]
  split_ifs with hc
  · exact Function.update_noteq hp _ _
  · rfl

theorem apply_hit_occ (N : Int) (acc : Grid × Nat) (cx cy hx hy : Int)
    (p : Int × Int) (h : acc.1 p = OCCUPIED) :
    (apply_hit N acc cx cy hx hy).1 p = OCCUPIED := by
  by_cases hp : p = (hx, hy)
  · rw [hp]
    exact apply_hit_fst_target ..
  · rw [apply_hit_fst_ne N acc cx cy hx hy p hp]
    exact (mark_free_space_occ ..).mpr h

theorem apply_hit_observed (N : Int) (acc : Grid × Nat) (cx cy hx hy : Int)
    (p : Int × Int) (h : Observed acc.1 p) :
    Observed (apply_hit N acc cx cy hx hy).1 p := by
  by_cases hp : p = (hx, hy)
  · exact Or.inr (by rw [hp]; exact apply_hit_fst_target ..)
  · unfold Observed
    rw [apply_hit_fst_ne N acc cx cy hx hy p hp]
    rcases h with hF | hO
    · exact Or.inl (mark_free_space_free_of_free N acc.1 cx cy hx hy p hF)
    · exact Or.inr ((mark_free_space_occ ..).mpr hO)

/-- A sample whose effect is already recorded in the grid: it is gated on
distance, its transform is out of bounds, or every in-bounds cell of its
ray is observed and its hit cell is occupied. -/
def Processed (N cx cy ca : Int) (g : Grid) (s : Int × ℚ) : Prop :=
  s.2 ≤ 0 ∨ MAX_DISTANCE ≤ s.2 ∨ OBSTACLE_THRESHOLD < s.2 ∨
    match polar_to_cartesian N s.1 s.2 cx cy ca with
    | none => True
    | some (hx, hy) =>
        (∀ q ∈ bresPath cx cy hx hy, inBounds N q → Observed g q) ∧
          g (hx, hy) = OCCUPIED

theorem scanStep_gated (N cx cy ca : Int) (acc : Grid × Nat) (s : Int × ℚ)
    (hg : s.2 ≤ 0 ∨ MAX_DISTANCE ≤ s.2 ∨ OBSTACLE_THRESHOLD < s.2) :
    scanStep N cx cy ca acc s = acc := by
  simp only [scanStep]
  rw [if_pos hg]

theorem scanStep_oob (N cx cy ca : Int) (acc : Grid × Nat) (s : Int × ℚ)
    (hp : polar_to_cartesian N s.1 s.2 cx cy ca = none) :
    scanStep N cx cy ca acc s = acc := by
  simp only [scanStep]
  split_ifs with hg
  · rfl
  · rw [hp]

theorem scanStep_hit (N cx cy ca : Int) (acc : Grid × Nat) (s : Int × ℚ)
    (hg : ¬(s.2 ≤ 0 ∨ MAX_DISTANCE ≤ s.2 ∨ OBSTACLE_THRESHOLD < s.2))
    (hx hy : Int)
    (hp : polar_to_cartesian N s.1 s.2 cx cy ca = some (hx, hy)) :
    scanStep N cx cy ca acc s = apply_hit N acc cx cy hx hy := by
  simp only [scanStep]
  rw [if_neg hg, hp]

theorem scanStep_occ (N cx cy ca : Int) (acc : Grid × Nat) (s : Int × ℚ)
    (p : Int × Int) (h : acc.1 p = OCCUPIED) :
    (scanStep N cx cy ca acc s).1 p = OCCUPIED := by
  by_cases hg : s.2 ≤ 0 ∨ MAX_DISTANCE ≤ s.2 ∨ OBSTACLE_THRESHOLD < s.2
  · rw [scanStep_gated N cx cy ca acc s hg]
    exact h
  · rcases hp : polar_to_cartesian N s.1 s.2 cx cy ca with _ | ⟨hx, hy⟩
    · rw [scanStep_oob N cx cy ca acc s hp]
      exact h
    · rw [scanStep_hit N cx cy ca acc s hg hx hy hp]
      exact apply_hit_occ N acc cx cy hx hy p h

theorem scanStep_observed (N cx cy ca : Int) (acc : Grid × Nat)
    (s : Int × ℚ) (p : Int × Int) (h : Observed acc.1 p) :
    Observed (scanStep N cx cy ca acc s).1 p := by
  by_cases hg : s.2 ≤ 0 ∨ MAX_DISTANCE ≤ s.2 ∨ OBSTACLE_THRESHOLD < s.2
  · rw [scanStep_gated N cx cy ca acc s hg]
    exact h
  · rcases hp : polar_to_cartesian N s.1 s.2 cx cy ca with _ | ⟨hx, hy⟩
    · rw [scanStep_oob N cx cy ca acc s hp]
      exact h
    · rw [scanStep_hit N cx cy ca acc s hg hx hy hp]
      exact apply_hit_observed N acc cx cy hx hy p h

theorem scanStep_processed_self (N cx cy ca : Int) (acc : Grid × Nat)
    (s : Int × ℚ) :
    Processed N cx cy ca (scanStep N cx cy ca acc s).1 s := by
  by_cases hg : s.2 ≤ 0 ∨ MAX_DISTANCE ≤ s.2 ∨ OBSTACLE_THRESHOLD < s.2
  · rcases hg with h | h | h
    · exact Or.inl h
    · exact Or.inr (Or.inl h)
    · exact Or.inr (Or.inr (Or.inl h))
  · refine Or.inr (Or.inr (Or.inr ?_))
    rcases hp : polar_to_cartesian N s.1 s.2 cx cy ca with _ | ⟨hx, hy⟩
    · simp
    · rw [scanStep_hit N cx cy ca acc s hg hx hy hp]
      refine ⟨fun q hq hin => ?_, apply_hit_fst_target ..⟩
      have hqne : q ≠ (hx, hy) := by
        intro he
        exact bresPath_target_not_mem cx cy hx hy (he ▸ hq)
      rw [Observed, apply_hit_fst_ne N acc cx cy hx hy q hqne]
      by_cases ho : acc.1 q = OCCUPIED
      · exact Or.inr ((mark_free_space_occ ..).mpr ho)
      · exact Or.inl (mark_free_space_mem N acc.1 cx cy hx hy q hq hin ho)

theorem scanStep_preserves_processed (N cx cy ca : Int) (acc : Grid × Nat)
    (s t : Int × ℚ) (h : Processed N cx cy ca acc.1 t) :
    Processed N cx cy ca (scanStep N cx cy ca acc s).1 t := by
  rcases h with h | h | h | h
  · exact Or.inl h
  · exact Or.inr (Or.inl h)
  · exact Or.inr (Or.inr (Or.inl h))
  · refine Or.inr (Or.inr (Or.inr ?_))
    rcases hp : polar_to_cartesian N t.1 t.2 cx cy ca with _ | ⟨hx, hy⟩
    · simp
    · rw [hp] at h
      exact ⟨fun q hq hin => scanStep_observed N cx cy ca acc s q
          (h.1 q hq hin),
        scanStep_occ N cx cy ca acc s (hx, hy) h.2⟩

theorem scanStep_of_processed (N cx cy ca : Int) (g : Grid) (c : Nat)
    (s : Int × ℚ) (h : Processed N cx cy ca g s) :
    scanStep N cx cy ca (g, c) s = (g, c) := by
  by_cases hg : s.2 ≤ 0 ∨ MAX_DISTANCE ≤ s.2 ∨ OBSTACLE_THRESHOLD < s.2
  · exact scanStep_gated N cx cy ca (g, c) s hg
  · rcases h with h | h | h | h
    · exact absurd (Or.inl h) hg
    · exact absurd (Or.inr (Or.inl h)) hg
    · exact absurd (Or.inr (Or.inr h)) hg
    · rcases hp : polar_to_cartesian N s.1 s.2 cx cy ca with _ | ⟨hx, hy⟩
      · exact scanStep_oob N cx cy ca (g, c) s hp
      · rw [hp] at h
        rw [scanStep_hit N cx cy ca (g, c) s hg hx hy hp]
        simp only [apply_hit]
        have hid : mark_free_space N (g, c).1 cx cy hx hy = g :=
          mark_free_space_id N g cx cy hx hy h.1
        rw [hid, if_neg (not_not_intro h.2)]

theorem foldl_scanStep_occ (N cx cy ca : Int) (scan : List (Int × ℚ)) :
    ∀ (acc : Grid × Nat) (p : Int × Int), acc.1 p = OCCUPIED →
      (List.foldl (scanStep N cx cy ca) acc scan).1 p = OCCUPIED := by
  induction scan with
  | nil => exact fun acc p h => h
  | cons t ts ih =>
    intro acc p h
    rw [List.foldl_cons]
    exact ih _ p (scanStep_occ N cx cy ca acc t p h)

theorem foldl_scanStep_processed (N cx cy ca : Int) (scan : List (Int × ℚ)) :
    ∀ (acc : Grid × Nat) (t : Int × ℚ), Processed N cx cy ca acc.1 t →
      Processed N cx cy ca (List.foldl (scanStep N cx cy ca) acc scan).1 t := by
  induction scan with
  | nil => exact fun acc t h => h
  | cons s ss ih =>
    intro acc t h
    rw [List.foldl_cons]
    exact ih _ t (scanStep_preserves_processed N cx cy ca acc s t h)

theorem foldl_scanStep_processed_all (N cx cy ca : Int)
    (scan : List (Int × ℚ)) :
    ∀ (acc : Grid × Nat) (s : Int × ℚ), s ∈ scan →
      Processed N cx cy ca (List.foldl (scanStep N cx cy ca) acc scan).1 s := by
  induction scan with
  | nil => exact fun acc s h => absurd h (List.not_mem_nil s)
  | cons t ts ih =>
    intro acc s hs
    rw [List.foldl_cons]
    rcases List.mem_cons.mp hs with heq | htail
    · subst heq
      exact foldl_scanStep_processed N cx cy ca ts _ s
        (scanStep_processed_self N cx cy ca acc s)
    · exact ih _ s htail

theorem foldl_scanStep_id (N cx cy ca : Int) (scan : List (Int × ℚ))
    (g : Grid) (c : Nat)
    (h : ∀ s ∈ scan, Processed N cx cy ca g s) :
    List.foldl (scanStep N cx cy ca) (g, c) scan = (g, c) := by
  induction scan with
  | nil => rfl
  | cons t ts ih =>
    rw [List.foldl_cons,
      scanStep_of_processed N cx cy ca g c t (h t (List.mem_cons_self t ts))]
    exact ih (fun s hs => h s (List.mem_cons_of_mem t hs))

theorem polar_some_inBounds (N angle : Int) (d : ℚ) (cx cy ca hx hy : Int)
    (hp : polar_to_cartesian N angle d cx cy ca = some (hx, hy)) :
    inBounds N (hx, hy) := by
  simp only [polar_to_cartesian] at hp
  split_ifs at hp with h
  cases hp
  exact h

theorem scanStep_out (N cx cy ca : Int) (acc : Grid × Nat) (s : Int × ℚ)
    (p : Int × Int) (hout : ¬inBounds N p) :
    (scanStep N cx cy ca acc s).1 p = acc.1 p := by
  by_cases hg : s.2 ≤ 0 ∨ MAX_DISTANCE ≤ s.2 ∨ OBSTACLE_THRESHOLD < s.2
  · rw [scanStep_gated N cx cy ca acc s hg]
  · rcases hp : polar_to_cartesian N s.1 s.2 cx cy ca with _ | ⟨hx, hy⟩
    · rw [scanStep_oob N cx cy ca acc s hp]
    · rw [scanStep_hit N cx cy ca acc s hg hx hy hp,
        apply_hit_fst_ne N acc cx cy hx hy p
          (fun he => hout (he ▸ polar_some_inBounds N s.1 s.2 cx cy ca hx hy hp)),
        mark_free_space_out N acc.1 cx cy hx hy p hout]

theorem foldl_scanStep_out (N cx cy ca : Int) (scan : List (Int × ℚ)) :
    ∀ (acc : Grid × Nat) (p : Int × Int), ¬inBounds N p →
      (List.foldl (scanStep N cx cy ca) acc scan).1 p = acc.1 p := by
  induction scan with
  | nil => exact fun acc p _ => rfl
  | cons t ts ih =>
    intro acc p hout
    rw [List.foldl_cons, ih _ p hout, scanStep_out N cx cy ca acc t p hout]

/-- Claim C1: occupancy monotonicity — any cell that is `Occupied` stays
`Occupied` under both map-updating operations (`mark_free_space` and
`update_map_from_scan`); only the explicit `clear_map` reset returns cells
to `Unknown`. -/
theorem occupied_cells_persist (N : Int) (g : Grid) (scan : List (Int × ℚ))
    (cx cy ca x1 y1 x2 y2 : Int) (p : Int × Int) (h : g p = OCCUPIED) :
    mark_free_space N g x1 y1 x2 y2 p = OCCUPIED ∧
      (update_map_from_scan N g scan cx cy ca).1 p = OCCUPIED ∧
      clear_map p = UNKNOWN :=
  ⟨(mark_free_space_occ ..).mpr h,
   foldl_scanStep_occ N cx cy ca scan (g, 0) p h,
   rfl⟩

theorem occupied_cells_persist_witness :
    (fun _ => OCCUPIED : Grid) (3, 4) = OCCUPIED ∧
      (mark_free_space 100 (fun _ => OCCUPIED) 50 50 50 60 (3, 4) = OCCUPIED ∧
        (update_map_from_scan 100 (fun _ => OCCUPIED) [] 50 50 0).1 (3, 4) =
          OCCUPIED ∧
        clear_map (3, 4) = UNKNOWN) :=
  ⟨rfl, occupied_cells_persist 100 (fun _ => OCCUPIED) [] 50 50 0 50 50 50 60
    (3, 4) rfl⟩

/-- Claim C2: the ray-cast update walks the Bresenham line from the start
cell to the hit cell; every visited cell (the hit cell is never visited)
that is in bounds and not already occupied becomes `Free`, the hit cell is
left untouched by the free-space pass and is then set `Occupied` by the
hit pass, whose obstacle count increments exactly when the hit cell was
not already occupied.  In particular the walk from (50,50) to (50,60)
visits (50,50)..(50,59). -/
theorem raycast_update (N : Int) (g : Grid) (c : Nat) (x1 y1 x2 y2 : Int)
    (p : Int × Int) (hmem : p ∈ bresPath x1 y1 x2 y2) (hin : inBounds N p)
    (ho : g p ≠ OCCUPIED) :
    mark_free_space N g x1 y1 x2 y2 p = FREE ∧
      mark_free_space N g x1 y1 x2 y2 (x2, y2) = g (x2, y2) ∧
      (apply_hit N (g, c) x1 y1 x2 y2).1 (x2, y2) = OCCUPIED ∧
      ((apply_hit N (g, c) x1 y1 x2 y2).2 = c + 1 ↔ g (x2, y2) ≠ OCCUPIED) ∧
      bresPath 50 50 50 60 =
        [(50, 50), (50, 51), (50, 52), (50, 53), (50, 54), (50, 55), (50, 56),
          (50, 57), (50, 58), (50, 59)] := by
  refine ⟨mark_free_space_mem N g x1 y1 x2 y2 p hmem hin ho,
    mark_free_space_target N g x1 y1 x2 y2,
    apply_hit_fst_target .., ?_, by decide⟩
  rw [apply_hit_count]
  by_cases hcc : g (x2, y2) = OCCUPIED
  · rw [if_pos hcc]
    exact iff_of_false (by omega) (not_not_intro hcc)
  · rw [if_neg hcc]
    exact iff_of_true rfl hcc

theorem raycast_update_witness :
    ((50, 53) ∈ bresPath 50 50 50 60 ∧ inBounds 100 ((50 : Int), (53 : Int)) ∧
        initial_map (50, 53) ≠ OCCUPIED) ∧
      (mark_free_space 100 initial_map 50 50 50 60 (50, 53) = FREE ∧
        mark_free_space 100 initial_map 50 50 50 60 (50, 60) =
          initial_map (50, 60) ∧
        (apply_hit 100 (initial_map, 0) 50 50 50 60).1 (50, 60) = OCCUPIED ∧
        ((apply_hit 100 (initial_map, 0) 50 50 50 60).2 = 0 + 1 ↔
          initial_map (50, 60) ≠ OCCUPIED) ∧
        bresPath 50 50 50 60 =
          [(50, 50), (50, 51), (50, 52), (50, 53), (50, 54), (50, 55),
            (50, 56), (50, 57), (50, 58), (50, 59)]) :=
  ⟨⟨by decide, by decide, by decide⟩,
   raycast_update 100 initial_map 0 50 50 50 60 (50, 53) (by decide)
     (by decide) (by decide)⟩

/-- Claim C6: a sample whose distance is non-positive, at least the
100 cm maximum range, or above the 80 cm obstacle threshold is skipped
entirely: the grid is unchanged and the obstacle count stays zero. -/
theorem dropzone_sample_skipped (N cx cy ca : Int) (g : Grid) (c : Nat)
    (angle : Int) (d : ℚ)
    (h : d ≤ 0 ∨ MAX_DISTANCE ≤ d ∨ OBSTACLE_THRESHOLD < d) :
    scanStep N cx cy ca (g, c) (angle, d) = (g, c) ∧
      update_map_from_scan N g [(angle, d)] cx cy ca = (g, 0) := by
  refine ⟨scanStep_gated N cx cy ca (g, c) (angle, d) h, ?_⟩
  unfold update_map_from_scan
  rw [List.foldl_cons, scanStep_gated N cx cy ca (g, 0) (angle, d) h]
  rfl

theorem dropzone_sample_skipped_witness :
    ((85 : ℚ) ≤ 0 ∨ MAX_DISTANCE ≤ (85 : ℚ) ∨
        OBSTACLE_THRESHOLD < (85 : ℚ)) ∧
      (scanStep 100 50 50 0 (initial_map, 0) (0, 85) = (initial_map, 0) ∧
        update_map_from_scan 100 initial_map [(0, 85)] 50 50 0 =
          (initial_map, 0)) :=
  ⟨by decide, dropzone_sample_skipped 100 50 50 0 initial_map 0 0 85
    (by decide)⟩

/-- Claim C7: running `update_map_from_scan` a second time with the same
scan data from the same pose changes no cell and reports zero new
obstacles. -/
theorem update_map_idempotent (N : Int) (g : Grid) (scan : List (Int × ℚ))
    (cx cy ca : Int) :
    update_map_from_scan N (update_map_from_scan N g scan cx cy ca).1 scan
        cx cy ca =
      ((update_map_from_scan N g scan cx cy ca).1, 0) := by
  unfold update_map_from_scan
  exact foldl_scanStep_id N cx cy ca scan _ 0
    (fun s hs => foldl_scanStep_processed_all N cx cy ca scan (g, 0) s hs)

/-- Claim C9 counterexample: `mark_free_space` from a start cell outside
the grid passes out-of-range coordinates to the write path and completes
normally, silently skipping them (the out-of-range cell keeps its state,
the in-range cell on the same walk is written) — it does not fail
loudly. -/
theorem unchecked_write_not_loud :
    (-1, 0) ∈ bresPath (-2) 0 1 0 ∧
      ¬inBounds 100 ((-1 : Int), (0 : Int)) ∧
      mark_free_space 100 initial_map (-2) 0 1 0 (-1, 0) = UNKNOWN ∧
      mark_free_space 100 initial_map (-2) 0 1 0 (0, 0) = FREE := by
  refine ⟨by decide, by decide, by decide, by decide⟩

/-- Claim C9 amended: out-of-range coordinates reaching the grid-write
path are silently skipped by the bounds guard — neither `mark_free_space`
nor `update_map_from_scan` ever writes an out-of-range cell, and both
return normally instead of failing. -/
theorem out_of_range_writes_skipped (N : Int) (g : Grid)
    (scan : List (Int × ℚ)) (cx cy ca x1 y1 x2 y2 : Int) (p : Int × Int)
    (hout : ¬inBounds N p) :
    mark_free_space N g x1 y1 x2 y2 p = g p ∧
      (update_map_from_scan N g scan cx cy ca).1 p = g p :=
  ⟨mark_free_space_out N g x1 y1 x2 y2 p hout,
   foldl_scanStep_out N cx cy ca scan (g, 0) p hout⟩

theorem out_of_range_writes_skipped_witness :
    ¬inBounds 100 ((-1 : Int), (0 : Int)) ∧
      (mark_free_space 100 initial_map (-2) 0 1 0 (-1, 0) =
          initial_map (-1, 0) ∧
        (update_map_from_scan 100 initial_map [] 50 50 0).1 (-1, 0) =
          initial_map (-1, 0)) :=
  ⟨by decide, out_of_range_writes_skipped 100 initial_map [] 50 50 0
    (-2) 0 1 0 (-1, 0) (by decide)⟩

/-- Claim C3: the coordinate transform returns the cell
`(round(x + d·cos(radians(heading − bearing))),
round(y + d·sin(radians(heading − bearing))))` exactly when it lies in
`[0, N) × [0, N)` and `none` otherwise; with bearing 0 the direction is
the heading itself. -/
theorem polar_to_cartesian_spec (N angle : Int) (d : ℚ) (cx cy ca : Int) :
    (polar_to_cartesian N angle d cx cy ca =
      (let xi := round ((cx : ℝ) + (d : ℝ) *
          Real.cos (radians ((ca : ℝ) - (angle : ℝ))));
        let yi := round ((cy : ℝ) + (d : ℝ) *
          Real.sin (radians ((ca : ℝ) - (angle : ℝ))));
        if 0 ≤ xi ∧ xi < N ∧ 0 ≤ yi ∧ yi < N then some (xi, yi) else none)) ∧
      polar_to_cartesian N 0 d cx cy ca =
        (let xi := round ((cx : ℝ) + (d : ℝ) * Real.cos (radians (ca : ℝ)));
          let yi := round ((cy : ℝ) + (d : ℝ) * Real.sin (radians (ca : ℝ)));
          if 0 ≤ xi ∧ xi < N ∧ 0 ≤ yi ∧ yi < N then some (xi, yi)
          else none) := by
  refine ⟨rfl, ?_⟩
  simp only [polar_to_cartesian, Int.cast_zero, sub_zero]

/-- Claim C4: `update_car_position` first reduces the heading modulo 360,
then, only for a strictly positive distance, adds the rounded
`d·cos`/`d·sin` of the new heading and clamps each axis to `[0, N-1]`;
in particular `advance(10, 90)` from (50,50,0°) gives (50,60) heading 90°,
and `advance(1000, 0)` from (99,50,0°) clamps x to 99. -/
theorem update_car_position_spec (N cx cy ca : Int) (d : ℚ) (da : Int) :
    (update_car_position N cx cy ca d da =
      (if 0 < d then
        (max 0 (min (N - 1) (cx + round ((d : ℝ) *
            Real.cos (radians (((ca + da) % 360 : Int) : ℝ))))),
          max 0 (min (N - 1) (cy + round ((d : ℝ) *
            Real.sin (radians (((ca + da) % 360 : Int) : ℝ))))),
          (ca + da) % 360)
      else (cx, cy, (ca + da) % 360))) ∧
      update_car_position 100 50 50 0 10 90 = (50, 60, 90) ∧
      update_car_position 100 99 50 0 1000 0 = (99, 50, 0) := by
  refine ⟨rfl, ?_, ?_⟩
  · simp only [update_car_position, radians]
    rw [if_pos (show (0 : ℚ) < 10 by norm_num),
      show ((0 : ℤ) + 90) % 360 = (90 : ℤ) from by decide,
      show ((90 : ℤ) : ℝ) * Real.pi / 180 = Real.pi / 2 from by
        push_cast; ring]
    norm_num
  · simp only [update_car_position, radians]
    rw [if_pos (show (0 : ℚ) < 1000 by norm_num),
      show ((0 : ℤ) + 0) % 360 = (0 : ℤ) from by decide,
      show ((0 : ℤ) : ℝ) * Real.pi / 180 = 0 from by norm_num]
    norm_num

theorem chain_map_range'_append (x e : Int × ℚ) (f : Nat → Int × ℚ) :
    ∀ (k s : Nat), (k = 0 → x.1 < e.1) → (0 < k → x.1 < (f s).1) →
      (∀ i, s ≤ i → i + 1 < s + k → (f i).1 < (f (i + 1)).1) →
      (0 < k → (f (s + k - 1)).1 < e.1) →
      List.Chain (fun p q : Int × ℚ => p.1 < q.1) x
        ((List.range' s k).map f ++ [e])
  | 0, s, h1, _, _, _ => by
    simpa using List.Chain.cons (h1 rfl) List.Chain.nil
  | k + 1, s, h1, h2, h3, h4 => by
    rw [List.range'_succ, List.map_cons, List.cons_append]
    refine List.Chain.cons (h2 (Nat.succ_pos k)) ?_
    refine chain_map_range'_append (f s) e f k (s + 1) ?_ ?_ ?_ ?_
    · intro hk
      have h := h4 (Nat.succ_pos k)
      have he : s + (k + 1) - 1 = s := by omega
      rwa [he] at h
    · intro hk
      exact h3 s (Nat.le_refl s) (by omega)
    · intro i hi hlt
      exact h3 i (by omega) (by omega)
    · intro hk
      have h := h4 (Nat.succ_pos k)
      have he : s + (k + 1) - 1 = s + 1 + k - 1 := by omega
      rwa [he] at h

theorem chain_seg (a1 : Int) (d1 : ℚ) (a2 : Int) (d2 : ℚ) (e : Int × ℚ)
    (istep : Int) (hstep : 0 < istep) (ha : a1 < a2) (he : e.1 = a2) :
    List.Chain (fun p q : Int × ℚ => p.1 < q.1) (a1, d1)
      (interpSegment a1 d1 a2 d2 istep ++ [e]) := by
  have habs : |a2 - a1| = a2 - a1 := abs_of_nonneg (by omega)
  unfold interpSegment
  by_cases h1 : 1 < Int.fdiv |a2 - a1| istep
  · rw [if_pos h1]
    have hnple : Int.fdiv |a2 - a1| istep * istep ≤ a2 - a1 := by
      rw [habs, Int.fdiv_eq_ediv _ hstep.le]
      exact Int.ediv_mul_le _ (by omega)
    have hk : (((Int.fdiv |a2 - a1| istep - 1).toNat : Int)) =
        Int.fdiv |a2 - a1| istep - 1 := Int.toNat_of_nonneg (by omega)
    apply chain_map_range'_append
    · intro _
      rw [he]
      exact ha
    · intro _
      dsimp only
      rw [if_pos ha, mul_one]
      push_cast
      omega
    · intro i _ _
      dsimp only
      rw [if_pos ha]
      simp only [mul_one]
      push_cast
      nlinarith [hstep]
    · intro hkpos
      have h11 : 1 + (Int.fdiv |a2 - a1| istep - 1).toNat - 1 =
          (Int.fdiv |a2 - a1| istep - 1).toNat := by omega
      rw [h11]
      dsimp only
      rw [if_pos ha, mul_one, he, hk]
      nlinarith [hstep, hnple]
  · rw [if_neg h1]
    rw [List.nil_append]
    exact List.Chain.cons (by rw [he]; exact ha) List.Chain.nil

theorem interpPairs_cons_head (istep : Int) (y : Int × ℚ)
    (t : List (Int × ℚ)) (d : Int × ℚ) :
    ∃ r, interpPairs istep (y :: t) ++ [(y :: t).getLastD d] = y :: r := by
  cases t with
  | nil => exact ⟨[], rfl⟩
  | cons z t' =>
    obtain ⟨a1, d1⟩ := y
    obtain ⟨a2, d2⟩ := z
    exact ⟨_, rfl⟩

theorem interpPairs_chain' (istep : Int) (hstep : 0 < istep) :
    ∀ (s : List (Int × ℚ)) (d : Int × ℚ),
      List.Chain' (fun p q : Int × ℚ => p.1 < q.1) s →
      List.Chain' (fun p q : Int × ℚ => p.1 < q.1)
        (interpPairs istep s ++ [s.getLastD d])
  | [], _, _ => List.Chain.nil
  | [x], _, _ => List.Chain.nil
  | x :: y :: t, d, hch => by
    obtain ⟨a1, d1⟩ := x
    obtain ⟨a2, d2⟩ := y
    have hxy : a1 < a2 := (List.chain'_cons.mp hch).1
    have htail := (List.chain'_cons.mp hch).2
    obtain ⟨r, hr⟩ := interpPairs_cons_head istep (a2, d2) t (a1, d1)
    have hih := interpPairs_chain' istep hstep ((a2, d2) :: t) (a1, d1) htail
    rw [hr] at hih
    show List.Chain _ (a1, d1)
      ((interpSegment a1 d1 a2 d2 istep ++ interpPairs istep ((a2, d2) :: t))
        ++ [((a2, d2) :: t).getLastD (a1, d1)])
    rw [List.append_assoc, hr, List.chain_split]
    exact ⟨chain_seg a1 d1 a2 d2 (a2, d2) istep hstep hxy rfl, hih⟩

theorem interpolate_scan_sub_step_zero_iff (step : Int) :
    min 5 (Int.fdiv step 2) = 0 ↔ step = 0 ∨ step = 1 := by
  rw [Int.fdiv_eq_ediv _ (by norm_num)]
  rcases le_or_lt 5 (step / 2) with h5 | h5
  · rw [min_eq_left h5]
    omega
  · rw [min_eq_right h5.le]
    omega

/-- Claim C5: `interpolate_scan` returns inputs of fewer than 2 samples
unchanged; otherwise each adjacent pair contributes the first sample
verbatim followed by `steps − 1` interior samples (sub-step
`min(5, step // 2)`, `steps = |bearing2 − bearing1| // sub-step`, linear
distances `d1 + (d2 − d1)·(j/steps)`), the last original sample is
appended, and bearing order is preserved; on `(0,10),(30,20)` with step 15
the interior bearings are 5,10,...,25. -/
theorem interpolate_scan_spec (s : List (Int × ℚ)) (step : Int)
    (a1 a2 : Int) (d1 d2 : ℚ) (rest : List (Int × ℚ))
    (hshort : s.length < 2) (histep : min 5 (Int.fdiv step 2) ≠ 0)
    (hstep2 : 2 ≤ step)
    (hchain : List.Chain' (fun p q : Int × ℚ => p.1 < q.1)
      ((a1, d1) :: (a2, d2) :: rest)) :
    interpolate_scan s step = some s ∧
      interpolate_scan ((a1, d1) :: (a2, d2) :: rest) step =
        Option.map
          (fun tail =>
            ((a1, d1) :: interpSegment a1 d1 a2 d2 (min 5 (Int.fdiv step 2)))
              ++ tail)
          (interpolate_scan ((a2, d2) :: rest) step) ∧
      (1 < Int.fdiv |a2 - a1| (min 5 (Int.fdiv step 2)) →
        interpSegment a1 d1 a2 d2 (min 5 (Int.fdiv step 2)) =
          (List.range' 1
              ((Int.fdiv |a2 - a1| (min 5 (Int.fdiv step 2)) - 1).toNat)).map
            (fun (j : Nat) =>
              (a1 + (j : Int) * min 5 (Int.fdiv step 2) *
                  (if a1 < a2 then 1 else -1),
                d1 + (d2 - d1) *
                  ((j : ℚ) /
                    (Int.fdiv |a2 - a1| (min 5 (Int.fdiv step 2)) : ℚ))))) ∧
      (¬1 < Int.fdiv |a2 - a1| (min 5 (Int.fdiv step 2)) →
        interpSegment a1 d1 a2 d2 (min 5 (Int.fdiv step 2)) = []) ∧
      List.Chain' (fun p q : Int × ℚ => p.1 < q.1)
        ((interpolate_scan ((a1, d1) :: (a2, d2) :: rest) step).getD []) ∧
      interpolate_scan [(0, 10), (30, 20)] 15 =
        some [(0, 10), (5, 35/3), (10, 40/3), (15, 15), (20, 50/3),
          (25, 55/3), (30, 20)] := by
  have hpos : 0 < min 5 (Int.fdiv step 2) := by
    have h2 : 1 ≤ Int.fdiv step 2 := by
      rw [Int.fdiv_eq_ediv _ (by norm_num)]
      omega
    exact lt_of_lt_of_le Int.zero_lt_one (le_min (by norm_num) h2)
  refine ⟨?_, ?_, ?_, ?_, ?_, ?_⟩
  · unfold interpolate_scan
    rw [if_pos hshort]
  · cases rest with
    | nil => simp [interpolate_scan, interpPairs, histep]
    | cons z rest' =>
      simp [interpolate_scan, interpPairs, histep, List.append_assoc]
      rw [if_neg (by omega), if_neg (by omega)]
      simp [List.append_assoc]
  · intro h
    unfold interpSegment
    rw [if_pos h]
  · intro h
    unfold interpSegment
    rw [if_neg h]
  · simp only [interpolate_scan]
    rw [if_neg (by simp), if_neg histep]
    exact interpPairs_chain' _ hpos _ (0, 0) hchain
  · have h7 : Int.fdiv 15 2 = 7 := by decide
    have hmin : min (5 : ℤ) 7 = 5 := by decide
    have habs : |(30 : Int) - 0| = 30 := by decide
    have h6 : Int.fdiv 30 5 = 6 := by decide
    have ht : ((6 : ℤ) - 1).toNat = 5 := by decide
    have hr : List.range' 1 5 = [1, 2, 3, 4, 5] := by decide
    simp only [interpolate_scan, interpPairs, interpSegment, h7, hmin, habs,
      h6, ht, hr]
    norm_num

theorem interpolate_scan_spec_witness :
    (([(0, 10)] : List (Int × ℚ)).length < 2 ∧
        min 5 (Int.fdiv 15 2) ≠ 0 ∧ (2 : Int) ≤ 15 ∧
        List.Chain' (fun p q : Int × ℚ => p.1 < q.1)
          [(0, 10), (30, 20)]) ∧
      (interpolate_scan [(0, 10)] 15 = some [(0, 10)] ∧
        interpolate_scan [(0, 10), (30, 20)] 15 =
          Option.map
            (fun tail =>
              ((0, 10) :: interpSegment 0 10 30 20 (min 5 (Int.fdiv 15 2)))
                ++ tail)
            (interpolate_scan [(30, 20)] 15) ∧
        (1 < Int.fdiv |(30 : Int) - 0| (min 5 (Int.fdiv 15 2)) →
          interpSegment 0 10 30 20 (min 5 (Int.fdiv 15 2)) =
            (List.range' 1
                ((Int.fdiv |(30 : Int) - 0| (min 5 (Int.fdiv 15 2)) -
                  1).toNat)).map
              (fun (j : Nat) =>
                ((0 : Int) + (j : Int) * min 5 (Int.fdiv 15 2) *
                    (if (0 : Int) < 30 then 1 else -1),
                  (10 : ℚ) + ((20 : ℚ) - 10) *
                    ((j : ℚ) /
                      (Int.fdiv |(30 : Int) - 0| (min 5 (Int.fdiv 15 2)) :
                        ℚ))))) ∧
        (¬1 < Int.fdiv |(30 : Int) - 0| (min 5 (Int.fdiv 15 2)) →
          interpSegment 0 10 30 20 (min 5 (Int.fdiv 15 2)) = []) ∧
        List.Chain' (fun p q : Int × ℚ => p.1 < q.1)
          ((interpolate_scan [(0, 10), (30, 20)] 15).getD []) ∧
        interpolate_scan [(0, 10), (30, 20)] 15 =
          some [(0, 10), (5, 35/3), (10, 40/3), (15, 15), (20, 50/3),
            (25, 55/3), (30, 20)]) :=
  ⟨⟨by decide, by decide, by decide, List.chain'_pair.mpr (by decide)⟩,
    interpolate_scan_spec [(0, 10)] 15 0 30 10 20 [] (by decide) (by decide)
      (by decide) (List.chain'_pair.mpr (by decide))⟩

/-- Claim C10 counterexample: step `-1` is `≤ 1` yet `interpolate_scan`
on two samples returns normally (no division-by-zero), because the
sub-step `min(5, -1 // 2) = -1` is nonzero. -/
theorem interpolate_scan_negative_step_no_error :
    (-1 : Int) ≤ 1 ∧
      interpolate_scan [(0, 10), (30, 20)] (-1) =
        some [(0, 10), (30, 20)] :=
  ⟨by decide, by decide⟩

/-- Claim C10 amended: on at least 2 samples `interpolate_scan` hits the
division-by-zero (`none`) exactly for `step = 0` or `step = 1` — i.e. it
terminates without error for every `step ≥ 2` and also for every negative
step, where the sub-step is negative but nonzero. -/
theorem interpolate_scan_failure_iff (s : List (Int × ℚ)) (step : Int)
    (h : 2 ≤ s.length) :
    interpolate_scan s step = none ↔ step = 0 ∨ step = 1 := by
  simp only [interpolate_scan]
  rw [if_neg (by omega)]
  split_ifs with hz
  · exact iff_of_true rfl ((interpolate_scan_sub_step_zero_iff step).mp hz)
  · exact iff_of_false (by simp)
      (fun hc => hz ((interpolate_scan_sub_step_zero_iff step).mpr hc))

theorem interpolate_scan_failure_iff_witness :
    2 ≤ ([(0, 10), (30, 20)] : List (Int × ℚ)).length ∧
      (interpolate_scan [(0, 10), (30, 20)] 0 = none ↔
        (0 : Int) = 0 ∨ (0 : Int) = 1) :=
  ⟨by decide, interpolate_scan_failure_iff [(0, 10), (30, 20)] 0 (by decide)⟩

/-- Claim C8: persisting a grid (`save_map`) and restoring it
(`load_map`) succeeds and reproduces the stored dimensions and every
in-grid cell exactly, for an arbitrary grid — all-unknown, all-occupied
or mixed. -/
theorem save_load_roundtrip (N : Nat) (g : Grid) (x y : Int)
    (hx : 0 ≤ x ∧ x < (N : Int)) (hy : 0 ≤ y ∧ y < (N : Int)) :
    (load_map (save_map N g)).map (fun r => r.1) = some N ∧
      (load_map (save_map N g)).map (fun r => r.2 (x, y)) =
        some (g (x, y)) := by
  have hN : 0 < N := by omega
  have hxN : x.toNat < N := by omega
  have hyN : y.toNat < N := by omega
  have hlen : ((List.range (N * N)).map
      (fun i => g ((i % N : Nat), (i / N : Nat)))).length = N * N := by
    simp
  have hload : load_map (save_map N g) = some (N, fun p =>
      if 0 ≤ p.1 ∧ p.1 < (N : Int) ∧ 0 ≤ p.2 ∧ p.2 < (N : Int) then
        ((List.range (N * N)).map
            (fun i => g ((i % N : Nat), (i / N : Nat)))).getD
          (p.2.toNat * N + p.1.toNat) UNKNOWN
      else UNKNOWN) := by
    simp only [load_map, save_map]
    rw [if_pos hlen]
  rw [hload]
  refine ⟨rfl, ?_⟩
  have hidx : y.toNat * N + x.toNat < N * N := by nlinarith
  simp only [Option.map_some']
  rw [if_pos ⟨hx.1, hx.2, hy.1, hy.2⟩, List.getD_eq_getElem?_getD,
    List.getElem?_map, List.getElem?_range hidx]
  simp only [Option.map_some', Option.getD_some]
  have hmod : (y.toNat * N + x.toNat) % N = x.toNat := by
    rw [Nat.mul_comm y.toNat N, Nat.mul_add_mod]
    exact Nat.mod_eq_of_lt hxN
  have hdiv : (y.toNat * N + x.toNat) / N = y.toNat := by
    rw [Nat.mul_comm y.toNat N, Nat.mul_add_div hN, Nat.div_eq_of_lt hxN,
      Nat.add_zero]
  rw [hmod, hdiv, Int.toNat_of_nonneg hx.1, Int.toNat_of_nonneg hy.1]

theorem save_load_roundtrip_witness :
    ((0 ≤ (1 : Int) ∧ (1 : Int) < (2 : Nat)) ∧
        (0 ≤ (0 : Int) ∧ (0 : Int) < (2 : Nat))) ∧
      ((load_map (save_map 2
            (fun p => if p = (0, 0) then OCCUPIED
              else if p = (1, 0) then FREE else UNKNOWN))).map
          (fun r => r.1) = some 2 ∧
        (load_map (save_map 2
            (fun p => if p = (0, 0) then OCCUPIED
              else if p = (1, 0) then FREE else UNKNOWN))).map
          (fun r => r.2 (1, 0)) =
          some ((fun p => if p = (0, 0) then OCCUPIED
            else if p = (1, 0) then FREE else UNKNOWN)
              ((1 : Int), (0 : Int)))) :=
  ⟨⟨⟨by decide, by decide⟩, ⟨by decide, by decide⟩⟩,
    save_load_roundtrip 2
      (fun p => if p = (0, 0) then OCCUPIED
        else if p = (1, 0) then FREE else UNKNOWN) 1 0
      ⟨by decide, by decide⟩ ⟨by decide, by decide⟩⟩

end AdvancedMapping
